import Mathlib

/-!
# Handler reconciliation of the coding-game-service integration shim

A shallow embedding of `lib/shim.c`: the table of event handlers kept by a
`CodingGameServiceAppIntegrationController`, the registration entry point
`..._service_event_with_listener`, the change handler `..._events_changed` and
`..._dispose`.

Modelling conventions.

* The `GHashTable` of handlers is the list of its entries in iteration order;
  a table built by `g_hash_table_insert` has pairwise distinct keys
  (`KeysDistinct`).
* Pointers are natural numbers; a function pointer that may be `NULL` is an
  `Option Nat`.
* Client callbacks and destroy notifiers are opaque to the library.  Every
  invocation is recorded, in program order, in a trace of `Event`s; each event
  carries the key of the table entry on whose behalf the call is made.
  Callbacks are taken not to re-enter the controller.
* A run that calls through a `NULL` function pointer, or trips `g_assert`,
  ends the process: the operation yields `none`.
-/

namespace CodingGameService

/-! ## Data model -/

/-- Callback slot `struct _AppIntegrationData`: the callback (`none` is `NULL`),
its user data and the destroy notifier of the user data (`none` is `NULL`). -/
structure AppIntegrationData where
  callback : Option Nat
  data : Nat
  destroy_data : Option Nat
deriving DecidableEq, Repr

/-- Handler pair `struct _AppIntegrationDataPair`. -/
structure AppIntegrationDataPair where
  register_data : AppIntegrationData
  deregister_data : AppIntegrationData
  registered : Bool
deriving DecidableEq, Repr

/-- Entries of the `event_handlers` hash table, in iteration order. -/
abbrev GHashTable := List (String × AppIntegrationDataPair)

/-- Proxy of the remote service; the only property the shim reads is the
`NULL`-terminated array `currently-listening-for-events`. -/
structure CodingGameServiceCodingGameService where
  currently_listening_for_events : List String
deriving DecidableEq, Repr

/-- Instance data `struct _CodingGameServiceAppIntegrationController`;
`service` is `none` when the proxy pointer is `NULL`. -/
structure CodingGameServiceAppIntegrationController where
  event_handlers : GHashTable
  service : Option CodingGameServiceCodingGameService
deriving DecidableEq, Repr

/-- Calls the library makes into client code, plus the two library-side effects
the trace keeps: the critical warning of a failed `g_return_if_fail` and the
release of the service proxy by `g_clear_object`. -/
inductive Event where
  | register_cb (key : String) (callback data : Nat)
  | deregister_cb (key : String) (callback data : Nat)
  | destroy_register (key : String) (destroy data : Nat)
  | destroy_deregister (key : String) (destroy data : Nat)
  | critical
  | unref_service
deriving DecidableEq, Repr

/-- A table as the hash table keeps it: no key occurs twice. -/
def KeysDistinct (t : GHashTable) : Prop := (t.map Prod.fst).Nodup

instance (t : GHashTable) : Decidable (KeysDistinct t) := by
  unfold KeysDistinct; infer_instance

/-! ## GLib primitives used by the shim -/

/-- Value stored under `key`, `none` for the `NULL` result. -/
def g_hash_table_lookup : GHashTable → String → Option AppIntegrationDataPair
  | [], _ => none
  | (k, v) :: rest, key => if k = key then some v else g_hash_table_lookup rest key

/-- Membership test of a `NULL`-terminated string array, by `g_str_equal`. -/
def g_strv_contains : List String → String → Bool
  | [], _ => false
  | s :: rest, str => if s = str then true else g_strv_contains rest str

/-- Value destructor of the table, `app_integration_data_pair_free`: each
destroy notifier that is set is called on its user data, the one of the register
slot first. -/
def app_integration_data_pair_free (key : String) (pair : AppIntegrationDataPair) : List Event :=
  (match pair.register_data.destroy_data with
    | some d => [Event.destroy_register key d pair.register_data.data]
    | none => []) ++
  (match pair.deregister_data.destroy_data with
    | some d => [Event.destroy_deregister key d pair.deregister_data.data]
    | none => [])

/-- Insertion `g_hash_table_insert`: a key already present keeps its place and
has its old value destroyed and replaced; a new key is added. -/
def g_hash_table_insert : GHashTable → String → AppIntegrationDataPair → GHashTable × List Event
  | [], key, value => ([(key, value)], [])
  | (k, v) :: rest, key, value =>
    if k = key then ((k, value) :: rest, app_integration_data_pair_free k v)
    else
      let r := g_hash_table_insert rest key value
      ((k, v) :: r.1, r.2)

/-! ## The shim -/

/-- Constructor `app_integration_data_pair_new`; the pair starts with
`registered = FALSE`. -/
def app_integration_data_pair_new (register_interest_cb : Option Nat) (register_user_data : Nat)
    (destroy_register_data : Option Nat) (deregister_interest_cb : Option Nat)
    (deregister_user_data : Nat) (destroy_deregister_data : Option Nat) : AppIntegrationDataPair :=
  { register_data :=
      { callback := register_interest_cb, data := register_user_data,
        destroy_data := destroy_register_data }
    deregister_data :=
      { callback := deregister_interest_cb, data := deregister_user_data,
        destroy_data := destroy_deregister_data }
    registered := false }

/-- The `while (*listening_for)` loop of `..._service_event_with_listener`: at the
first array element equal to `event_name` the register callback is called through
its pointer, unchecked, and the loop is left. -/
def listening_for_loop (event_name : String) (register_interest_cb : Option Nat)
    (register_user_data : Nat) : List String → Option (List Event)
  | [] => some []
  | s :: rest =>
    if s = event_name then
      match register_interest_cb with
      | some f => some [Event.register_cb event_name f register_user_data]
      | none => none
    else listening_for_loop event_name register_interest_cb register_user_data rest

/-- Registration `coding_game_service_app_integration_controller_service_event_with_listener`. -/
def coding_game_service_app_integration_controller_service_event_with_listener
    (controller : CodingGameServiceAppIntegrationController) (event_name : String)
    (register_interest_cb : Option Nat) (register_user_data : Nat)
    (destroy_register_data : Option Nat) (deregister_interest_cb : Option Nat)
    (deregister_user_data : Nat) (destroy_deregister_data : Option Nat) :
    Option (CodingGameServiceAppIntegrationController × List Event) :=
  match g_hash_table_lookup controller.event_handlers event_name with
  | some _ => some (controller, [Event.critical])
  | none =>
    let pair := app_integration_data_pair_new register_interest_cb register_user_data
      destroy_register_data deregister_interest_cb deregister_user_data destroy_deregister_data
    let ins := g_hash_table_insert controller.event_handlers event_name pair
    let controller1 : CodingGameServiceAppIntegrationController :=
      { controller with event_handlers := ins.1 }
    match controller.service with
    | none => some (controller1, ins.2)
    | some service =>
      match listening_for_loop event_name register_interest_cb register_user_data
          service.currently_listening_for_events with
      | some calls => some (controller1, ins.2 ++ calls)
      | none => none

/-- One turn of the `while` loop of `..._events_changed`, on the entry
`(key, pair)`: the value the entry is left with (`none` when
`g_hash_table_iter_remove` takes it out, which runs the value destructor) and the
calls made. -/
def events_changed_visit (listening_for : List String) (key : String)
    (pair : AppIntegrationDataPair) : Option AppIntegrationDataPair × List Event :=
  let contained_in_strv := g_strv_contains listening_for key
  if pair.registered && !contained_in_strv then
    (none,
      (match pair.deregister_data.callback with
        | some f => [Event.deregister_cb key f pair.deregister_data.data]
        | none => []) ++ app_integration_data_pair_free key pair)
  else if !pair.registered && contained_in_strv then
    (some { pair with registered := true },
      match pair.register_data.callback with
        | some f => [Event.register_cb key f pair.register_data.data]
        | none => [])
  else (some pair, [])

/-- The iteration of `..._events_changed` over the entries still to visit: the
table left behind and the calls made. -/
def events_changed_loop (listening_for : List String) : GHashTable → GHashTable × List Event
  | [] => ([], [])
  | (key, pair) :: rest =>
    let v := events_changed_visit listening_for key pair
    let r := events_changed_loop listening_for rest
    ((match v.1 with
        | some value => (key, value) :: r.1
        | none => r.1),
      v.2 ++ r.2)

/-- Change handler `coding_game_service_app_integration_controller_events_changed`,
run on `notify::currently-listening-for-events`; `g_assert` ends the run when
there is no service. -/
def coding_game_service_app_integration_controller_events_changed
    (controller : CodingGameServiceAppIntegrationController) :
    Option (CodingGameServiceAppIntegrationController × List Event) :=
  match controller.service with
  | none => none
  | some service =>
    let r := events_changed_loop service.currently_listening_for_events controller.event_handlers
    some ({ controller with event_handlers := r.1 }, r.2)

/-- One turn of the `while` loop of `..._dispose`, on the entry `(key, pair)`:
the deregister callback when the entry is registered and the callback is set, then
the removal of the entry, which runs the value destructor. -/
def dispose_visit (key : String) (pair : AppIntegrationDataPair) : List Event :=
  (if pair.registered then
      match pair.deregister_data.callback with
      | some f => [Event.deregister_cb key f pair.deregister_data.data]
      | none => []
    else []) ++ app_integration_data_pair_free key pair

/-- The iteration of `..._dispose`: every entry is visited and removed. -/
def dispose_loop : GHashTable → GHashTable × List Event
  | [] => ([], [])
  | (key, pair) :: rest =>
    let r := dispose_loop rest
    (r.1, dispose_visit key pair ++ r.2)

/-- Finaliser `coding_game_service_app_integration_controller_dispose`. -/
def coding_game_service_app_integration_controller_dispose
    (controller : CodingGameServiceAppIntegrationController) :
    CodingGameServiceAppIntegrationController × List Event :=
  let r := dispose_loop controller.event_handlers
  ({ event_handlers := r.1, service := none },
    (match controller.service with
      | some _ => [Event.unref_service]
      | none => []) ++ r.2)

/-! ## Reading a trace -/

/-- Key of the table entry a client call is made for. -/
def Event.key : Event → Option String
  | Event.register_cb k _ _ => some k
  | Event.deregister_cb k _ _ => some k
  | Event.destroy_register k _ _ => some k
  | Event.destroy_deregister k _ _ => some k
  | Event.critical => none
  | Event.unref_service => none

/-- Recogniser of the calls of a register callback. -/
def Event.isRegisterCall : Event → Bool
  | Event.register_cb _ _ _ => true
  | _ => false

/-- Recogniser of the calls of a deregister callback. -/
def Event.isDeregisterCall : Event → Bool
  | Event.deregister_cb _ _ _ => true
  | _ => false

/-- Recogniser of the calls of a destroy notifier. -/
def Event.isDestroyCall : Event → Bool
  | Event.destroy_register _ _ _ => true
  | Event.destroy_deregister _ _ _ => true
  | _ => false

/-- Calls made for the entry `key`, in program order. -/
def callsFor (key : String) (trace : List Event) : List Event :=
  trace.filter fun e => decide (e.key = some key)

/-- Number of calls of the register callback made for the entry `key`. -/
def registerCalls (key : String) (trace : List Event) : Nat :=
  (callsFor key trace).countP Event.isRegisterCall

/-- Number of calls of the deregister callback made for the entry `key`. -/
def deregisterCalls (key : String) (trace : List Event) : Nat :=
  (callsFor key trace).countP Event.isDeregisterCall

/-- Number of calls of a destroy notifier made for the entry `key`. -/
def destroyCalls (key : String) (trace : List Event) : Nat :=
  (callsFor key trace).countP Event.isDestroyCall

/-- Reading of "the register callback of `key` has been called, and more
recently than its deregister callback": the last callback call made for `key` in
the trace is a call of the register callback. -/
def registerCalledLast (key : String) (trace : List Event) : Bool :=
  match ((callsFor key trace).filter fun e => e.isRegisterCall || e.isDeregisterCall).getLast? with
  | some e => e.isRegisterCall
  | none => false

/-! ## Lemmas on the primitives -/

theorem g_strv_contains_iff (l : List String) (s : String) :
    g_strv_contains l s = true ↔ s ∈ l := by
  induction l with
  | nil => simp [g_strv_contains]
  | cons a l ih =>
    by_cases h : a = s
    · simp [g_strv_contains, h]
    · have h2 : ¬ s = a := fun h3 => h h3.symm
      simp [g_strv_contains, h, h2, ih]

theorem g_strv_contains_eq_false_iff (l : List String) (s : String) :
    g_strv_contains l s = false ↔ s ∉ l := by
  rw [← g_strv_contains_iff]; simp

theorem g_hash_table_lookup_eq_none_iff (t : GHashTable) (k : String) :
    g_hash_table_lookup t k = none ↔ k ∉ t.map Prod.fst := by
  induction t with
  | nil => simp [g_hash_table_lookup]
  | cons a t ih =>
    obtain ⟨k1, v⟩ := a
    by_cases h : k1 = k
    · simp [g_hash_table_lookup, h]
    · have h2 : ¬ k = k1 := fun h3 => h h3.symm
      simp [g_hash_table_lookup, h, h2, ih]

theorem g_hash_table_lookup_mem (t : GHashTable) (k : String) (p : AppIntegrationDataPair)
    (h : g_hash_table_lookup t k = some p) : (k, p) ∈ t := by
  induction t with
  | nil => simp [g_hash_table_lookup] at h
  | cons a t ih =>
    obtain ⟨k1, v⟩ := a
    by_cases hk : k1 = k
    · simp [g_hash_table_lookup, hk] at h
      simp [hk, h]
    · simp [g_hash_table_lookup, hk] at h
      exact List.mem_cons_of_mem _ (ih h)

theorem g_hash_table_lookup_of_mem (t : GHashTable) (k : String) (p : AppIntegrationDataPair)
    (hd : KeysDistinct t) (h : (k, p) ∈ t) : g_hash_table_lookup t k = some p := by
  induction t with
  | nil => simp at h
  | cons a t ih =>
    obtain ⟨k1, v⟩ := a
    simp only [KeysDistinct, List.map_cons, List.nodup_cons] at hd
    rcases List.mem_cons.mp h with h1 | h1
    · cases h1
      simp [g_hash_table_lookup]
    · have hne : ¬ k1 = k := by
        intro h2
        apply hd.1
        rw [h2]
        exact List.mem_map_of_mem Prod.fst h1
      simp only [g_hash_table_lookup, hne, if_false]
      exact ih hd.2 h1

theorem g_hash_table_insert_of_lookup_none (t : GHashTable) (k : String)
    (p : AppIntegrationDataPair) (h : g_hash_table_lookup t k = none) :
    g_hash_table_insert t k p = (t ++ [(k, p)], []) := by
  induction t with
  | nil => simp [g_hash_table_insert]
  | cons a t ih =>
    obtain ⟨k1, v⟩ := a
    by_cases hk : k1 = k
    · simp [g_hash_table_lookup, hk] at h
    · simp only [g_hash_table_lookup, hk, if_false] at h
      simp [g_hash_table_insert, hk, ih h]

theorem g_hash_table_lookup_append_single (t : GHashTable) (k k1 : String)
    (p : AppIntegrationDataPair) :
    g_hash_table_lookup (t ++ [(k1, p)]) k =
      match g_hash_table_lookup t k with
      | some v => some v
      | none => if k1 = k then some p else none := by
  induction t with
  | nil => simp [g_hash_table_lookup]
  | cons a t ih =>
    obtain ⟨k2, v⟩ := a
    by_cases hk : k2 = k
    · simp [g_hash_table_lookup, hk]
    · simp [g_hash_table_lookup, hk, ih]

theorem keysDistinct_append_single (t : GHashTable) (k : String) (p : AppIntegrationDataPair)
    (hd : KeysDistinct t) (h : g_hash_table_lookup t k = none) :
    KeysDistinct (t ++ [(k, p)]) := by
  rw [g_hash_table_lookup_eq_none_iff] at h
  unfold KeysDistinct at *
  rw [List.map_append, List.nodup_append]
  refine ⟨hd, by simp, ?_⟩
  intro a ha hb
  simp at hb
  subst hb
  exact h ha

/-! ## Lemmas on traces -/

theorem callsFor_append (k : String) (xs ys : List Event) :
    callsFor k (xs ++ ys) = callsFor k xs ++ callsFor k ys := by
  simp [callsFor]

theorem callsFor_eq_self (k : String) (xs : List Event) (h : ∀ e ∈ xs, e.key = some k) :
    callsFor k xs = xs := by
  unfold callsFor
  rw [List.filter_eq_self]
  intro e he
  simp [h e he]

theorem callsFor_eq_nil (k k1 : String) (xs : List Event) (h : ∀ e ∈ xs, e.key = some k1)
    (hne : k1 ≠ k) : callsFor k xs = [] := by
  unfold callsFor
  rw [List.filter_eq_nil_iff]
  intro e he
  simp [h e he, hne]

theorem app_integration_data_pair_free_key (k : String) (p : AppIntegrationDataPair) :
    ∀ e ∈ app_integration_data_pair_free k p, e.key = some k := by
  intro e he
  unfold app_integration_data_pair_free at he
  rcases List.mem_append.mp he with h | h
  · cases hd : p.register_data.destroy_data <;> simp [hd] at h
    subst h; rfl
  · cases hd : p.deregister_data.destroy_data <;> simp [hd] at h
    subst h; rfl

theorem events_changed_visit_key (S : List String) (k : String) (p : AppIntegrationDataPair) :
    ∀ e ∈ (events_changed_visit S k p).2, e.key = some k := by
  intro e he
  unfold events_changed_visit at he
  simp only at he
  split at he
  · rcases List.mem_append.mp he with h | h
    · cases hc : p.deregister_data.callback <;> simp [hc] at h
      subst h; rfl
    · exact app_integration_data_pair_free_key k p e h
  · split at he
    · cases hc : p.register_data.callback <;> simp [hc] at he
      subst he; rfl
    · simp at he

theorem dispose_visit_key (k : String) (p : AppIntegrationDataPair) :
    ∀ e ∈ dispose_visit k p, e.key = some k := by
  intro e he
  unfold dispose_visit at he
  rcases List.mem_append.mp he with h | h
  · split at h
    · cases hc : p.deregister_data.callback <;> simp [hc] at h
      subst h; rfl
    · simp at h
  · exact app_integration_data_pair_free_key k p e h

/-! ## Lemmas on the change handler -/

theorem events_changed_loop_cons (S : List String) (k : String) (p : AppIntegrationDataPair)
    (t : GHashTable) :
    events_changed_loop S ((k, p) :: t) =
      ((match (events_changed_visit S k p).1 with
          | some value => (k, value) :: (events_changed_loop S t).1
          | none => (events_changed_loop S t).1),
        (events_changed_visit S k p).2 ++ (events_changed_loop S t).2) := rfl

theorem events_changed_loop_lookup_none (S : List String) (t : GHashTable) (k : String)
    (h : g_hash_table_lookup t k = none) :
    g_hash_table_lookup (events_changed_loop S t).1 k = none := by
  induction t with
  | nil => simp [events_changed_loop, g_hash_table_lookup]
  | cons a t ih =>
    obtain ⟨k1, v⟩ := a
    by_cases hk : k1 = k
    · simp [g_hash_table_lookup, hk] at h
    · simp only [g_hash_table_lookup, hk, if_false] at h
      rw [events_changed_loop_cons]
      cases hv : (events_changed_visit S k1 v).1 with
      | none => simpa using ih h
      | some w => simpa [g_hash_table_lookup, hk] using ih h

theorem events_changed_loop_lookup (S : List String) (t : GHashTable) (k : String)
    (p : AppIntegrationDataPair) (hd : KeysDistinct t) (h : g_hash_table_lookup t k = some p) :
    g_hash_table_lookup (events_changed_loop S t).1 k = (events_changed_visit S k p).1 := by
  induction t with
  | nil => simp [g_hash_table_lookup] at h
  | cons a t ih =>
    obtain ⟨k1, v⟩ := a
    simp only [KeysDistinct, List.map_cons, List.nodup_cons] at hd
    rw [events_changed_loop_cons]
    by_cases hk : k1 = k
    · subst hk
      simp only [g_hash_table_lookup, if_true, Option.some.injEq] at h
      subst h
      have hn : g_hash_table_lookup t k1 = none :=
        (g_hash_table_lookup_eq_none_iff t k1).mpr hd.1
      cases hv : (events_changed_visit S k1 v).1 with
      | none => simpa using events_changed_loop_lookup_none S t k1 hn
      | some w => simp [g_hash_table_lookup]
    · simp only [g_hash_table_lookup, hk, if_false] at h
      cases hv : (events_changed_visit S k1 v).1 with
      | none => simpa using ih hd.2 h
      | some w => simpa [g_hash_table_lookup, hk] using ih hd.2 h

theorem events_changed_loop_keysDistinct (S : List String) (t : GHashTable)
    (hd : KeysDistinct t) : KeysDistinct (events_changed_loop S t).1 := by
  induction t with
  | nil => simpa [events_changed_loop] using hd
  | cons a t ih =>
    obtain ⟨k1, v⟩ := a
    simp only [KeysDistinct, List.map_cons, List.nodup_cons] at hd
    rw [events_changed_loop_cons]
    cases hv : (events_changed_visit S k1 v).1 with
    | none => simpa using ih hd.2
    | some w =>
      have hn : g_hash_table_lookup (events_changed_loop S t).1 k1 = none :=
        events_changed_loop_lookup_none S t k1 ((g_hash_table_lookup_eq_none_iff t k1).mpr hd.1)
      simp only [KeysDistinct, List.map_cons, List.nodup_cons]
      exact ⟨(g_hash_table_lookup_eq_none_iff _ k1).mp hn, ih hd.2⟩

theorem events_changed_loop_calls_none (S : List String) (t : GHashTable) (k : String)
    (h : g_hash_table_lookup t k = none) : callsFor k (events_changed_loop S t).2 = [] := by
  induction t with
  | nil => simp [events_changed_loop, callsFor]
  | cons a t ih =>
    obtain ⟨k1, v⟩ := a
    by_cases hk : k1 = k
    · simp [g_hash_table_lookup, hk] at h
    · simp only [g_hash_table_lookup, hk, if_false] at h
      rw [events_changed_loop_cons, callsFor_append,
        callsFor_eq_nil k k1 _ (events_changed_visit_key S k1 v) hk, ih h]
      rfl

theorem events_changed_loop_calls (S : List String) (t : GHashTable) (k : String)
    (p : AppIntegrationDataPair) (hd : KeysDistinct t) (h : g_hash_table_lookup t k = some p) :
    callsFor k (events_changed_loop S t).2 = (events_changed_visit S k p).2 := by
  induction t with
  | nil => simp [g_hash_table_lookup] at h
  | cons a t ih =>
    obtain ⟨k1, v⟩ := a
    simp only [KeysDistinct, List.map_cons, List.nodup_cons] at hd
    rw [events_changed_loop_cons, callsFor_append]
    by_cases hk : k1 = k
    · subst hk
      simp only [g_hash_table_lookup, if_true, Option.some.injEq] at h
      subst h
      have hn : g_hash_table_lookup t k1 = none :=
        (g_hash_table_lookup_eq_none_iff t k1).mpr hd.1
      rw [callsFor_eq_self k1 _ (events_changed_visit_key S k1 v),
        events_changed_loop_calls_none S t k1 hn, List.append_nil]
    · simp only [g_hash_table_lookup, hk, if_false] at h
      rw [callsFor_eq_nil k k1 _ (events_changed_visit_key S k1 v) hk, ih hd.2 h]
      rfl

/-! ## Lemmas on the finaliser -/

theorem dispose_loop_table (t : GHashTable) : (dispose_loop t).1 = [] := by
  induction t with
  | nil => rfl
  | cons a t ih =>
    obtain ⟨k1, v⟩ := a
    simpa [dispose_loop] using ih

theorem dispose_loop_calls_none (t : GHashTable) (k : String)
    (h : g_hash_table_lookup t k = none) : callsFor k (dispose_loop t).2 = [] := by
  induction t with
  | nil => simp [dispose_loop, callsFor]
  | cons a t ih =>
    obtain ⟨k1, v⟩ := a
    by_cases hk : k1 = k
    · simp [g_hash_table_lookup, hk] at h
    · simp only [g_hash_table_lookup, hk, if_false] at h
      simp only [dispose_loop]
      rw [callsFor_append, callsFor_eq_nil k k1 _ (dispose_visit_key k1 v) hk, ih h]
      rfl

theorem dispose_loop_calls (t : GHashTable) (k : String) (p : AppIntegrationDataPair)
    (hd : KeysDistinct t) (h : g_hash_table_lookup t k = some p) :
    callsFor k (dispose_loop t).2 = dispose_visit k p := by
  induction t with
  | nil => simp [g_hash_table_lookup] at h
  | cons a t ih =>
    obtain ⟨k1, v⟩ := a
    simp only [KeysDistinct, List.map_cons, List.nodup_cons] at hd
    simp only [dispose_loop]
    rw [callsFor_append]
    by_cases hk : k1 = k
    · subst hk
      simp only [g_hash_table_lookup, if_true, Option.some.injEq] at h
      subst h
      have hn : g_hash_table_lookup t k1 = none :=
        (g_hash_table_lookup_eq_none_iff t k1).mpr hd.1
      rw [callsFor_eq_self k1 _ (dispose_visit_key k1 v), dispose_loop_calls_none t k1 hn,
        List.append_nil]
    · simp only [g_hash_table_lookup, hk, if_false] at h
      rw [callsFor_eq_nil k k1 _ (dispose_visit_key k1 v) hk, ih hd.2 h]
      rfl

theorem events_changed_visit_settled (S : List String) (k : String)
    (p w : AppIntegrationDataPair) (h : (events_changed_visit S k p).1 = some w) :
    events_changed_visit S k w = (some w, []) := by
  unfold events_changed_visit at h ⊢
  cases hr : p.registered <;> cases hc : g_strv_contains S k <;> simp [hr, hc] at h <;>
    subst h <;> simp [hr, hc]

theorem events_changed_loop_settled (S : List String) (t : GHashTable) :
    events_changed_loop S (events_changed_loop S t).1 = ((events_changed_loop S t).1, []) := by
  induction t with
  | nil => rfl
  | cons a t ih =>
    obtain ⟨k1, v⟩ := a
    rw [events_changed_loop_cons]
    cases hv : (events_changed_visit S k1 v).1 with
    | none => simpa using ih
    | some w =>
      simp only
      rw [events_changed_loop_cons, events_changed_visit_settled S k1 v w hv, ih]
      rfl

theorem dispose_loop_no_register_call (t : GHashTable) :
    ∀ e ∈ (dispose_loop t).2, e.isRegisterCall = false := by
  induction t with
  | nil => simp [dispose_loop]
  | cons a t ih =>
    obtain ⟨k1, v⟩ := a
    intro e he
    simp only [dispose_loop, dispose_visit, app_integration_data_pair_free] at he
    simp only [List.mem_append] at he
    rcases he with ((h | h | h) | h)
    · split at h
      · cases hc : v.deregister_data.callback <;> simp [hc] at h
        subst h; rfl
      · simp at h
    · cases hc : v.register_data.destroy_data <;> simp [hc] at h
      subst h; rfl
    · cases hc : v.deregister_data.destroy_data <;> simp [hc] at h
      subst h; rfl
    · exact ih e h

theorem dispose_loop_append (t u : GHashTable) :
    (dispose_loop (t ++ u)).2 = (dispose_loop t).2 ++ (dispose_loop u).2 := by
  induction t with
  | nil => simp [dispose_loop]
  | cons a t ih =>
    obtain ⟨k1, v⟩ := a
    simp [dispose_loop, ih]

/-! ## Lemmas on registration -/

theorem listening_for_loop_of_not_mem (e : String) (cb : Option Nat) (d : Nat)
    (L : List String) (h : e ∉ L) : listening_for_loop e cb d L = some [] := by
  induction L with
  | nil => rfl
  | cons a L ih =>
    have hne : ¬ a = e := fun h2 => h (by simp [h2])
    have hL : e ∉ L := fun h2 => h (List.mem_cons_of_mem _ h2)
    simp only [listening_for_loop, hne, if_false]
    exact ih hL

theorem listening_for_loop_of_mem (e : String) (f d : Nat) (L : List String) (h : e ∈ L) :
    listening_for_loop e (some f) d L = some [Event.register_cb e f d] := by
  induction L with
  | nil => simp at h
  | cons a L ih =>
    by_cases hae : a = e
    · simp [listening_for_loop, hae]
    · have hL : e ∈ L := by
        rcases List.mem_cons.mp h with h2 | h2
        · exact absurd h2.symm hae
        · exact h2
      simp only [listening_for_loop, hae, if_false]
      exact ih hL

theorem service_event_with_listener_fresh (t : GHashTable)
    (service : Option CodingGameServiceCodingGameService) (e : String)
    (register_interest_cb : Option Nat) (register_user_data : Nat)
    (destroy_register_data : Option Nat) (deregister_interest_cb : Option Nat)
    (deregister_user_data : Nat) (destroy_deregister_data : Option Nat)
    (h : g_hash_table_lookup t e = none) :
    coding_game_service_app_integration_controller_service_event_with_listener ⟨t, service⟩ e
        register_interest_cb register_user_data destroy_register_data deregister_interest_cb
        deregister_user_data destroy_deregister_data =
      match service with
      | none =>
        some (⟨t ++ [(e, app_integration_data_pair_new register_interest_cb register_user_data
          destroy_register_data deregister_interest_cb deregister_user_data
          destroy_deregister_data)], none⟩, [])
      | some s =>
        (listening_for_loop e register_interest_cb register_user_data
          s.currently_listening_for_events).map fun calls =>
            (⟨t ++ [(e, app_integration_data_pair_new register_interest_cb register_user_data
              destroy_register_data deregister_interest_cb deregister_user_data
              destroy_deregister_data)], some s⟩, calls) := by
  simp only [coding_game_service_app_integration_controller_service_event_with_listener, h,
    g_hash_table_insert_of_lookup_none t e _ h]
  cases service with
  | none => rfl
  | some s =>
    simp only
    cases listening_for_loop e register_interest_cb register_user_data
      s.currently_listening_for_events <;> simp

theorem events_changed_visit_registered (S : List String) (k : String)
    (p w : AppIntegrationDataPair) (h : (events_changed_visit S k p).1 = some w) :
    w.registered = g_strv_contains S k := by
  unfold events_changed_visit at h
  cases hr : p.registered <;> cases hc : g_strv_contains S k <;> simp [hr, hc] at h <;>
    subst h <;> simp [hr]

theorem events_changed_loop_registered (S : List String) (t : GHashTable) :
    ∀ k p, (k, p) ∈ (events_changed_loop S t).1 → p.registered = g_strv_contains S k := by
  induction t with
  | nil => simp [events_changed_loop]
  | cons a t ih =>
    obtain ⟨k1, v⟩ := a
    intro k p hm
    rw [events_changed_loop_cons] at hm
    cases hv : (events_changed_visit S k1 v).1 with
    | none =>
      rw [hv] at hm
      exact ih k p hm
    | some w =>
      rw [hv] at hm
      rcases List.mem_cons.mp hm with h1 | h1
      · cases h1
        exact events_changed_visit_registered S k1 v p hv
      · exact ih k p h1

/-! ## Lemmas on removal -/

theorem app_integration_data_pair_free_eq (k : String) (p : AppIntegrationDataPair) :
    app_integration_data_pair_free k p =
      (p.register_data.destroy_data.map fun d =>
        Event.destroy_register k d p.register_data.data).toList ++
      (p.deregister_data.destroy_data.map fun d =>
        Event.destroy_deregister k d p.deregister_data.data).toList := by
  unfold app_integration_data_pair_free
  cases p.register_data.destroy_data <;> cases p.deregister_data.destroy_data <;> rfl

theorem events_changed_visit_removed (S : List String) (k : String) (p : AppIntegrationDataPair)
    (h : (events_changed_visit S k p).1 = none) :
    (events_changed_visit S k p).2 =
      (p.deregister_data.callback.map fun f =>
        Event.deregister_cb k f p.deregister_data.data).toList ++
      app_integration_data_pair_free k p := by
  unfold events_changed_visit at h ⊢
  cases hr : p.registered <;> cases hc : g_strv_contains S k <;> simp [hr, hc] at h ⊢
  cases p.deregister_data.callback <;> rfl

theorem events_changed_visit_kept (S : List String) (k : String) (p w : AppIntegrationDataPair)
    (h : (events_changed_visit S k p).1 = some w) :
    (events_changed_visit S k p).2.countP Event.isDestroyCall = 0 := by
  unfold events_changed_visit at h ⊢
  cases hr : p.registered <;> cases hc : g_strv_contains S k <;> simp [hr, hc] at h ⊢
  cases p.register_data.callback <;> simp [Event.isDestroyCall]

theorem dispose_visit_eq (k : String) (p : AppIntegrationDataPair) :
    dispose_visit k p =
      (if p.registered = true then
        (p.deregister_data.callback.map fun f =>
          Event.deregister_cb k f p.deregister_data.data).toList
      else []) ++ app_integration_data_pair_free k p := by
  unfold dispose_visit
  cases p.registered <;> cases p.deregister_data.callback <;> rfl

theorem dispose_calls_eq (t : GHashTable) (service : Option CodingGameServiceCodingGameService)
    (k : String) :
    callsFor k (coding_game_service_app_integration_controller_dispose ⟨t, service⟩).2 =
      callsFor k (dispose_loop t).2 := by
  simp only [coding_game_service_app_integration_controller_dispose, callsFor_append]
  cases service <;> simp [callsFor, Event.key]

theorem dispose_loop_client_calls (t : GHashTable) :
    ∀ e ∈ (dispose_loop t).2, e.isDeregisterCall = true ∨ e.isDestroyCall = true := by
  induction t with
  | nil => simp [dispose_loop]
  | cons a t ih =>
    obtain ⟨k1, v⟩ := a
    intro e he
    simp only [dispose_loop, dispose_visit, app_integration_data_pair_free] at he
    simp only [List.mem_append] at he
    rcases he with ((h | h | h) | h)
    · split at h
      · cases hc : v.deregister_data.callback <;> simp [hc] at h
        subst h; exact Or.inl rfl
      · simp at h
    · cases hc : v.register_data.destroy_data <;> simp [hc] at h
      subst h; exact Or.inr rfl
    · cases hc : v.deregister_data.destroy_data <;> simp [hc] at h
      subst h; exact Or.inr rfl
    · exact ih e h

/-! ## Lemmas on the order of the visit -/

theorem keysDistinct_perm (t u : GHashTable) (hp : List.Perm t u) (hd : KeysDistinct t) :
    KeysDistinct u := by
  unfold KeysDistinct at *
  exact ((hp.map Prod.fst).nodup_iff).mp hd

theorem g_hash_table_lookup_perm (t u : GHashTable) (k : String) (hp : List.Perm t u)
    (hd : KeysDistinct t) : g_hash_table_lookup t k = g_hash_table_lookup u k := by
  cases h : g_hash_table_lookup t k with
  | none =>
    have hk : k ∉ t.map Prod.fst := (g_hash_table_lookup_eq_none_iff t k).mp h
    have hk2 : k ∉ u.map Prod.fst := fun hm => hk ((hp.map Prod.fst).mem_iff.mpr hm)
    exact ((g_hash_table_lookup_eq_none_iff u k).mpr hk2).symm
  | some p =>
    have hm : (k, p) ∈ u := hp.mem_iff.mp (g_hash_table_lookup_mem t k p h)
    exact (g_hash_table_lookup_of_mem u k p (keysDistinct_perm t u hp hd) hm).symm

theorem events_changed_loop_perm (S : List String) (t u : GHashTable) (hp : List.Perm t u) :
    List.Perm (events_changed_loop S t).1 (events_changed_loop S u).1 ∧
    List.Perm (events_changed_loop S t).2 (events_changed_loop S u).2 := by
  induction hp with
  | nil => exact ⟨List.Perm.refl _, List.Perm.refl _⟩
  | cons x _ ih =>
    obtain ⟨k, v⟩ := x
    rw [events_changed_loop_cons, events_changed_loop_cons]
    refine ⟨?_, List.Perm.append_left _ ih.2⟩
    cases (events_changed_visit S k v).1 with
    | none => exact ih.1
    | some w => exact List.Perm.cons _ ih.1
  | swap x y l =>
    obtain ⟨k, v⟩ := x
    obtain ⟨k2, v2⟩ := y
    simp only [events_changed_loop_cons]
    constructor
    · cases (events_changed_visit S k v).1 <;> cases (events_changed_visit S k2 v2).1
      · exact List.Perm.refl _
      · exact List.Perm.refl _
      · exact List.Perm.refl _
      · exact List.Perm.swap _ _ _
    · rw [← List.append_assoc, ← List.append_assoc]
      exact List.Perm.append_right _ List.perm_append_comm
  | trans _ _ ih1 ih2 => exact ⟨ih1.1.trans ih2.1, ih1.2.trans ih2.2⟩

theorem events_changed_visit_one_callback (S : List String) (k : String)
    (p : AppIntegrationDataPair) :
    (events_changed_visit S k p).2.countP Event.isRegisterCall +
      (events_changed_visit S k p).2.countP Event.isDeregisterCall ≤ 1 := by
  unfold events_changed_visit app_integration_data_pair_free
  cases p.registered <;> cases g_strv_contains S k <;> cases p.register_data.callback <;>
    cases p.deregister_data.callback <;> cases p.register_data.destroy_data <;>
    cases p.deregister_data.destroy_data <;>
    simp [Event.isRegisterCall, Event.isDeregisterCall]

/-! ## Properties of the change handler, registration and disposal -/

/-- C1 (disarm, then remove). A registered entry `e` with a deregister callback,
whose name is not in the list the service reports, gets exactly one call of that
callback from one run of the change handler, on its own user data, no call of
its register callback, and is gone from the table afterwards. -/
theorem events_changed_disarms_and_removes (t : GHashTable) (S : List String) (e : String)
    (pair : AppIntegrationDataPair) (f : Nat) (hd : KeysDistinct t)
    (hl : g_hash_table_lookup t e = some pair) (hr : pair.registered = true)
    (hcb : pair.deregister_data.callback = some f) (hS : e ∉ S) :
    ∃ c tr,
      coding_game_service_app_integration_controller_events_changed ⟨t, some ⟨S⟩⟩ = some (c, tr) ∧
      deregisterCalls e tr = 1 ∧
      Event.deregister_cb e f pair.deregister_data.data ∈ tr ∧
      registerCalls e tr = 0 ∧
      g_hash_table_lookup c.event_handlers e = none := by
  have hc : g_strv_contains S e = false := (g_strv_contains_eq_false_iff S e).mpr hS
  have hv : events_changed_visit S e pair =
      (none, [Event.deregister_cb e f pair.deregister_data.data] ++
        app_integration_data_pair_free e pair) := by
    simp [events_changed_visit, hr, hc, hcb]
  have hcalls := events_changed_loop_calls S t e pair hd hl
  have hlook := events_changed_loop_lookup S t e pair hd hl
  rw [hv] at hcalls hlook
  refine ⟨_, _, rfl, ?_, ?_, ?_, hlook⟩
  · unfold deregisterCalls
    rw [hcalls]
    unfold app_integration_data_pair_free
    cases pair.register_data.destroy_data <;> cases pair.deregister_data.destroy_data <;>
      simp [Event.isDeregisterCall]
  · have hm : Event.deregister_cb e f pair.deregister_data.data ∈
        callsFor e (events_changed_loop S t).2 := by
      rw [hcalls]; simp
    exact (List.mem_filter.mp hm).1
  · unfold registerCalls
    rw [hcalls]
    unfold app_integration_data_pair_free
    cases pair.register_data.destroy_data <;> cases pair.deregister_data.destroy_data <;>
      simp [Event.isRegisterCall]

/-- Instance of C1: the entry `"e"` is registered and the service lists only `"x"`. -/
theorem events_changed_disarms_and_removes_witness :
    ∃ c tr,
      coding_game_service_app_integration_controller_events_changed
        ⟨[("e", ⟨⟨some 1, 10, some 5⟩, ⟨some 2, 20, some 6⟩, true⟩)], some ⟨["x"]⟩⟩ = some (c, tr) ∧
      deregisterCalls "e" tr = 1 ∧
      Event.deregister_cb "e" 2 20 ∈ tr ∧
      registerCalls "e" tr = 0 ∧
      g_hash_table_lookup c.event_handlers "e" = none :=
  events_changed_disarms_and_removes
    [("e", ⟨⟨some 1, 10, some 5⟩, ⟨some 2, 20, some 6⟩, true⟩)] ["x"] "e"
    ⟨⟨some 1, 10, some 5⟩, ⟨some 2, 20, some 6⟩, true⟩ 2 (by decide) (by decide) rfl rfl
    (by decide)

/-- C2 (immediate arm), evaluated where the code departs from it. Registering
`"e"` while the service lists `"e"` calls the register callback once, yet the
stored pair keeps `registered = FALSE`: the next run of the change handler
on the same list calls the register callback a second time, and a disposal
straight after the registration never calls the deregister callback. -/
theorem register_interested_stays_unregistered :
    coding_game_service_app_integration_controller_service_event_with_listener
        ⟨[], some ⟨["e"]⟩⟩ "e" (some 1) 10 (some 5) (some 2) 20 (some 6) =
      some (⟨[("e", ⟨⟨some 1, 10, some 5⟩, ⟨some 2, 20, some 6⟩, false⟩)], some ⟨["e"]⟩⟩,
        [Event.register_cb "e" 1 10]) ∧
    coding_game_service_app_integration_controller_events_changed
        ⟨[("e", ⟨⟨some 1, 10, some 5⟩, ⟨some 2, 20, some 6⟩, false⟩)], some ⟨["e"]⟩⟩ =
      some (⟨[("e", ⟨⟨some 1, 10, some 5⟩, ⟨some 2, 20, some 6⟩, true⟩)], some ⟨["e"]⟩⟩,
        [Event.register_cb "e" 1 10]) ∧
    coding_game_service_app_integration_controller_dispose
        ⟨[("e", ⟨⟨some 1, 10, some 5⟩, ⟨some 2, 20, some 6⟩, false⟩)], some ⟨["e"]⟩⟩ =
      (⟨[], none⟩,
        [Event.unref_service, Event.destroy_register "e" 5 10, Event.destroy_deregister "e" 6 20]) := by
  refine ⟨by decide, by decide, by decide⟩

/-- C3 (no duplicate events). Registering a name that already has an entry, armed or
not, with or without a service, trips the guard: the controller comes back
exactly as it was, and the only thing recorded is the critical warning, so no
callback and no destroy notifier is called. -/
theorem register_duplicate_is_rejected (c : CodingGameServiceAppIntegrationController)
    (e : String) (old : AppIntegrationDataPair) (register_interest_cb : Option Nat)
    (register_user_data : Nat) (destroy_register_data : Option Nat)
    (deregister_interest_cb : Option Nat) (deregister_user_data : Nat)
    (destroy_deregister_data : Option Nat)
    (h : g_hash_table_lookup c.event_handlers e = some old) :
    coding_game_service_app_integration_controller_service_event_with_listener c e
        register_interest_cb register_user_data destroy_register_data deregister_interest_cb
        deregister_user_data destroy_deregister_data =
      some (c, [Event.critical]) := by
  unfold coding_game_service_app_integration_controller_service_event_with_listener
  rw [h]

/-- Instance of C3: a second registration of `"e"` while the service lists `"e"`. -/
theorem register_duplicate_is_rejected_witness :
    coding_game_service_app_integration_controller_service_event_with_listener
        ⟨[("e", ⟨⟨some 1, 10, some 5⟩, ⟨some 2, 20, some 6⟩, true⟩)], some ⟨["e"]⟩⟩ "e"
        (some 3) 30 (some 7) (some 4) 40 (some 8) =
      some (⟨[("e", ⟨⟨some 1, 10, some 5⟩, ⟨some 2, 20, some 6⟩, true⟩)], some ⟨["e"]⟩⟩,
        [Event.critical]) :=
  register_duplicate_is_rejected
    ⟨[("e", ⟨⟨some 1, 10, some 5⟩, ⟨some 2, 20, some 6⟩, true⟩)], some ⟨["e"]⟩⟩ "e"
    ⟨⟨some 1, 10, some 5⟩, ⟨some 2, 20, some 6⟩, true⟩ (some 3) 30 (some 7) (some 4) 40 (some 8)
    (by decide)

/-- C4 (idempotent diff). Whatever the table and its `registered` flags, a run of
the change handler succeeds, and a second run on the same list of the service
makes no call at all and returns the controller unchanged. -/
theorem events_changed_twice_is_silent (t : GHashTable) (S : List String) :
    ∃ c tr,
      coding_game_service_app_integration_controller_events_changed ⟨t, some ⟨S⟩⟩ = some (c, tr) ∧
      coding_game_service_app_integration_controller_events_changed c = some (c, []) := by
  refine ⟨_, _, rfl, ?_⟩
  simp only [coding_game_service_app_integration_controller_events_changed]
  rw [events_changed_loop_settled]

/-- C5 (teardown drains). Disposal empties the table, calls no register callback,
and for every entry calls the deregister callback once when the entry is
registered and the callback is set, and not at all otherwise. -/
theorem dispose_drains (c : CodingGameServiceAppIntegrationController)
    (hd : KeysDistinct c.event_handlers) :
    (coding_game_service_app_integration_controller_dispose c).1.event_handlers = [] ∧
    (∀ ev ∈ (coding_game_service_app_integration_controller_dispose c).2,
      ev.isRegisterCall = false) ∧
    (∀ k p, g_hash_table_lookup c.event_handlers k = some p →
      deregisterCalls k (coding_game_service_app_integration_controller_dispose c).2 =
        if p.registered = true ∧ p.deregister_data.callback.isSome = true then 1 else 0) := by
  refine ⟨dispose_loop_table _, ?_, ?_⟩
  · intro ev hev
    simp only [coding_game_service_app_integration_controller_dispose, List.mem_append] at hev
    rcases hev with h | h
    · cases hs : c.service <;> simp [hs] at h
      subst h; rfl
    · exact dispose_loop_no_register_call _ ev h
  · intro k p hl
    have hcalls := dispose_loop_calls c.event_handlers k p hd hl
    have hsplit : callsFor k (coding_game_service_app_integration_controller_dispose c).2 =
        callsFor k (dispose_loop c.event_handlers).2 := by
      simp only [coding_game_service_app_integration_controller_dispose, callsFor_append]
      cases c.service <;> simp [callsFor, Event.key]
    unfold deregisterCalls
    rw [hsplit, hcalls]
    unfold dispose_visit app_integration_data_pair_free
    cases p.registered <;> cases p.deregister_data.callback <;>
      cases p.register_data.destroy_data <;> cases p.deregister_data.destroy_data <;>
      simp [Event.isDeregisterCall]

/-- Instance of C5: with `a` registered and `b` not, disposal calls the deregister
callback of `a` once and that of `b` never, and leaves the table empty. -/
theorem dispose_drains_witness :
    KeysDistinct [("a", ⟨⟨some 1, 10, none⟩, ⟨some 2, 20, none⟩, true⟩),
      ("b", ⟨⟨some 3, 30, none⟩, ⟨some 4, 40, none⟩, false⟩)] ∧
    (coding_game_service_app_integration_controller_dispose
      ⟨[("a", ⟨⟨some 1, 10, none⟩, ⟨some 2, 20, none⟩, true⟩),
        ("b", ⟨⟨some 3, 30, none⟩, ⟨some 4, 40, none⟩, false⟩)], some ⟨["a"]⟩⟩).1.event_handlers
      = [] ∧
    deregisterCalls "a" (coding_game_service_app_integration_controller_dispose
      ⟨[("a", ⟨⟨some 1, 10, none⟩, ⟨some 2, 20, none⟩, true⟩),
        ("b", ⟨⟨some 3, 30, none⟩, ⟨some 4, 40, none⟩, false⟩)], some ⟨["a"]⟩⟩).2 = 1 ∧
    deregisterCalls "b" (coding_game_service_app_integration_controller_dispose
      ⟨[("a", ⟨⟨some 1, 10, none⟩, ⟨some 2, 20, none⟩, true⟩),
        ("b", ⟨⟨some 3, 30, none⟩, ⟨some 4, 40, none⟩, false⟩)], some ⟨["a"]⟩⟩).2 = 0 :=
  ⟨by decide,
    (dispose_drains
      ⟨[("a", ⟨⟨some 1, 10, none⟩, ⟨some 2, 20, none⟩, true⟩),
        ("b", ⟨⟨some 3, 30, none⟩, ⟨some 4, 40, none⟩, false⟩)], some ⟨["a"]⟩⟩ (by decide)).1,
    by decide, by decide⟩

/-- C6 (scenario), evaluated on the code. (1) Registering `"levelup"` while the
service lists `"levelup"` and `"login"` calls the register callback once but
stores the pair with `registered = FALSE`. (2) When the service then lists only
`"login"`, the change handler calls nothing and keeps the entry. (3) A second
registration of `"levelup"` is therefore turned down by the duplicate guard. -/
theorem scenario_levelup_trace :
    coding_game_service_app_integration_controller_service_event_with_listener
        ⟨[], some ⟨["levelup", "login"]⟩⟩ "levelup" (some 1) 10 (some 5) (some 2) 20 (some 6) =
      some (⟨[("levelup", ⟨⟨some 1, 10, some 5⟩, ⟨some 2, 20, some 6⟩, false⟩)],
          some ⟨["levelup", "login"]⟩⟩,
        [Event.register_cb "levelup" 1 10]) ∧
    coding_game_service_app_integration_controller_events_changed
        ⟨[("levelup", ⟨⟨some 1, 10, some 5⟩, ⟨some 2, 20, some 6⟩, false⟩)], some ⟨["login"]⟩⟩ =
      some (⟨[("levelup", ⟨⟨some 1, 10, some 5⟩, ⟨some 2, 20, some 6⟩, false⟩)],
          some ⟨["login"]⟩⟩, []) ∧
    coding_game_service_app_integration_controller_service_event_with_listener
        ⟨[("levelup", ⟨⟨some 1, 10, some 5⟩, ⟨some 2, 20, some 6⟩, false⟩)], some ⟨["login"]⟩⟩
        "levelup" (some 3) 30 (some 7) (some 4) 40 (some 8) =
      some (⟨[("levelup", ⟨⟨some 1, 10, some 5⟩, ⟨some 2, 20, some 6⟩, false⟩)],
          some ⟨["login"]⟩⟩, [Event.critical]) := by
  refine ⟨by decide, by decide, by decide⟩

/-- C7 (armed flag follows the calls), evaluated where the code departs from it.
The state reached from the empty table by registering `"e"` while the service
lists `"e"` has an entry whose register callback was called last, and whose
deregister callback was never called, with `registered = FALSE`. -/
theorem registered_flag_lags_register_call :
    ∃ c tr,
      coding_game_service_app_integration_controller_service_event_with_listener
        ⟨[], some ⟨["e"]⟩⟩ "e" (some 1) 10 (some 5) (some 2) 20 (some 6) = some (c, tr) ∧
      registerCalledLast "e" tr = true ∧
      deregisterCalls "e" tr = 0 ∧
      (g_hash_table_lookup c.event_handlers "e").map (fun p => p.registered) = some false :=
  ⟨_, _, rfl, by decide, by decide, by decide⟩

/-- C8 (dormant mode). Without a service, registering a name that has no entry
succeeds with no call at all, stores the new pair with `registered = FALSE`
and leaves the controller without a service; a disposal that follows calls
neither the register nor the deregister callback of that entry. -/
theorem register_dormant_never_arms (t : GHashTable) (e : String)
    (register_interest_cb : Option Nat) (register_user_data : Nat)
    (destroy_register_data : Option Nat) (deregister_interest_cb : Option Nat)
    (deregister_user_data : Nat) (destroy_deregister_data : Option Nat)
    (h : g_hash_table_lookup t e = none) :
    ∃ c,
      coding_game_service_app_integration_controller_service_event_with_listener ⟨t, none⟩ e
          register_interest_cb register_user_data destroy_register_data deregister_interest_cb
          deregister_user_data destroy_deregister_data = some (c, []) ∧
      c.service = none ∧
      g_hash_table_lookup c.event_handlers e =
        some ⟨⟨register_interest_cb, register_user_data, destroy_register_data⟩,
          ⟨deregister_interest_cb, deregister_user_data, destroy_deregister_data⟩, false⟩ ∧
      registerCalls e (coding_game_service_app_integration_controller_dispose c).2 = 0 ∧
      deregisterCalls e (coding_game_service_app_integration_controller_dispose c).2 = 0 := by
  have hcalls : callsFor e (coding_game_service_app_integration_controller_dispose
      ⟨t ++ [(e, app_integration_data_pair_new register_interest_cb register_user_data
        destroy_register_data deregister_interest_cb deregister_user_data
        destroy_deregister_data)], none⟩).2 =
      app_integration_data_pair_free e (app_integration_data_pair_new register_interest_cb
        register_user_data destroy_register_data deregister_interest_cb deregister_user_data
        destroy_deregister_data) := by
    simp only [coding_game_service_app_integration_controller_dispose, List.nil_append]
    rw [dispose_loop_append, callsFor_append, dispose_loop_calls_none t e h]
    simp only [dispose_loop, List.append_nil, List.nil_append]
    rw [callsFor_eq_self e _ (dispose_visit_key e _)]
    simp [dispose_visit, app_integration_data_pair_new]
  refine ⟨⟨t ++ [(e, app_integration_data_pair_new register_interest_cb register_user_data
      destroy_register_data deregister_interest_cb deregister_user_data
      destroy_deregister_data)], none⟩, ?_, rfl, ?_, ?_, ?_⟩
  · simp only [coding_game_service_app_integration_controller_service_event_with_listener, h,
      g_hash_table_insert_of_lookup_none t e _ h]
  · rw [g_hash_table_lookup_append_single, h]
    simp [app_integration_data_pair_new]
  · unfold registerCalls
    rw [hcalls]
    unfold app_integration_data_pair_free app_integration_data_pair_new
    cases destroy_register_data <;> cases destroy_deregister_data <;>
      simp [Event.isRegisterCall]
  · unfold deregisterCalls
    rw [hcalls]
    unfold app_integration_data_pair_free app_integration_data_pair_new
    cases destroy_register_data <;> cases destroy_deregister_data <;>
      simp [Event.isDeregisterCall]

/-- Instance of C8: `"e"` is registered next to an entry `"a"`, with no service. -/
theorem register_dormant_never_arms_witness :
    ∃ c,
      coding_game_service_app_integration_controller_service_event_with_listener
          ⟨[("a", ⟨⟨some 1, 10, none⟩, ⟨some 2, 20, none⟩, false⟩)], none⟩ "e"
          (some 3) 30 (some 7) (some 4) 40 (some 8) = some (c, []) ∧
      c.service = none ∧
      g_hash_table_lookup c.event_handlers "e" =
        some ⟨⟨some 3, 30, some 7⟩, ⟨some 4, 40, some 8⟩, false⟩ ∧
      registerCalls "e" (coding_game_service_app_integration_controller_dispose c).2 = 0 ∧
      deregisterCalls "e" (coding_game_service_app_integration_controller_dispose c).2 = 0 :=
  register_dormant_never_arms [("a", ⟨⟨some 1, 10, none⟩, ⟨some 2, 20, none⟩, false⟩)] "e"
    (some 3) 30 (some 7) (some 4) 40 (some 8) (by decide)

/-- C9 (arm on interest). An unregistered entry `e` with a register callback,
whose name is in the list the service reports, gets from one run of the change
handler exactly one call, that of its register callback on its own user data:
no deregister callback, no destroy notifier. The entry stays in the table with
the same two slots and `registered = TRUE`. -/
theorem events_changed_arms_interested (t : GHashTable) (S : List String) (e : String)
    (pair : AppIntegrationDataPair) (f : Nat) (hd : KeysDistinct t)
    (hl : g_hash_table_lookup t e = some pair) (hr : pair.registered = false)
    (hcb : pair.register_data.callback = some f) (hS : e ∈ S) :
    ∃ c tr,
      coding_game_service_app_integration_controller_events_changed ⟨t, some ⟨S⟩⟩ = some (c, tr) ∧
      callsFor e tr = [Event.register_cb e f pair.register_data.data] ∧
      registerCalls e tr = 1 ∧
      deregisterCalls e tr = 0 ∧
      destroyCalls e tr = 0 ∧
      g_hash_table_lookup c.event_handlers e =
        some ⟨pair.register_data, pair.deregister_data, true⟩ := by
  have hc : g_strv_contains S e = true := (g_strv_contains_iff S e).mpr hS
  have hv : events_changed_visit S e pair =
      (some ⟨pair.register_data, pair.deregister_data, true⟩,
        [Event.register_cb e f pair.register_data.data]) := by
    simp [events_changed_visit, hr, hc, hcb]
  have hcalls := events_changed_loop_calls S t e pair hd hl
  have hlook := events_changed_loop_lookup S t e pair hd hl
  rw [hv] at hcalls hlook
  refine ⟨_, _, rfl, hcalls, ?_, ?_, ?_, hlook⟩
  · unfold registerCalls
    rw [hcalls]
    rfl
  · unfold deregisterCalls
    rw [hcalls]
    rfl
  · unfold destroyCalls
    rw [hcalls]
    rfl

/-- Instance of C9: the entry `"e"` is unregistered and the service lists `"e"`. -/
theorem events_changed_arms_interested_witness :
    ∃ c tr,
      coding_game_service_app_integration_controller_events_changed
        ⟨[("a", ⟨⟨some 3, 30, none⟩, ⟨some 4, 40, none⟩, true⟩),
          ("e", ⟨⟨some 1, 10, some 5⟩, ⟨some 2, 20, some 6⟩, false⟩)], some ⟨["x", "e"]⟩⟩ =
        some (c, tr) ∧
      callsFor "e" tr = [Event.register_cb "e" 1 10] ∧
      registerCalls "e" tr = 1 ∧
      deregisterCalls "e" tr = 0 ∧
      destroyCalls "e" tr = 0 ∧
      g_hash_table_lookup c.event_handlers "e" =
        some ⟨⟨some 1, 10, some 5⟩, ⟨some 2, 20, some 6⟩, true⟩ :=
  events_changed_arms_interested
    [("a", ⟨⟨some 3, 30, none⟩, ⟨some 4, 40, none⟩, true⟩),
      ("e", ⟨⟨some 1, 10, some 5⟩, ⟨some 2, 20, some 6⟩, false⟩)] ["x", "e"] "e"
    ⟨⟨some 1, 10, some 5⟩, ⟨some 2, 20, some 6⟩, false⟩ 1 (by decide) (by decide) rfl rfl
    (by decide)

/-- C10 (no spurious fire). An entry that is registered with its name in the list
the service reports, or unregistered with its name not in the list, is left
alone by one run of the change handler: no call of any kind is made for it, and
it is still in the table with the same slots and the same `registered` flag. -/
theorem events_changed_leaves_settled_entries (t : GHashTable) (S : List String) (k : String)
    (pair : AppIntegrationDataPair) (hd : KeysDistinct t)
    (hl : g_hash_table_lookup t k = some pair)
    (hs : (pair.registered = true ∧ k ∈ S) ∨ (pair.registered = false ∧ k ∉ S)) :
    ∃ c tr,
      coding_game_service_app_integration_controller_events_changed ⟨t, some ⟨S⟩⟩ = some (c, tr) ∧
      callsFor k tr = [] ∧
      g_hash_table_lookup c.event_handlers k = some pair := by
  have hv : events_changed_visit S k pair = (some pair, []) := by
    rcases hs with ⟨hr, hS⟩ | ⟨hr, hS⟩
    · have hc : g_strv_contains S k = true := (g_strv_contains_iff S k).mpr hS
      simp [events_changed_visit, hr, hc]
    · have hc : g_strv_contains S k = false := (g_strv_contains_eq_false_iff S k).mpr hS
      simp [events_changed_visit, hr, hc]
  have hcalls := events_changed_loop_calls S t k pair hd hl
  have hlook := events_changed_loop_lookup S t k pair hd hl
  rw [hv] at hcalls hlook
  exact ⟨_, _, rfl, hcalls, hlook⟩

/-- Instance of C10: `"a"` is registered and listed; its neighbours change state. -/
theorem events_changed_leaves_settled_entries_witness :
    ∃ c tr,
      coding_game_service_app_integration_controller_events_changed
        ⟨[("b", ⟨⟨some 3, 30, none⟩, ⟨some 4, 40, none⟩, true⟩),
          ("a", ⟨⟨some 1, 10, some 5⟩, ⟨some 2, 20, some 6⟩, true⟩),
          ("e", ⟨⟨some 7, 70, none⟩, ⟨some 8, 80, none⟩, false⟩)], some ⟨["a", "e"]⟩⟩ =
        some (c, tr) ∧
      callsFor "a" tr = [] ∧
      g_hash_table_lookup c.event_handlers "a" =
        some ⟨⟨some 1, 10, some 5⟩, ⟨some 2, 20, some 6⟩, true⟩ :=
  events_changed_leaves_settled_entries
    [("b", ⟨⟨some 3, 30, none⟩, ⟨some 4, 40, none⟩, true⟩),
      ("a", ⟨⟨some 1, 10, some 5⟩, ⟨some 2, 20, some 6⟩, true⟩),
      ("e", ⟨⟨some 7, 70, none⟩, ⟨some 8, 80, none⟩, false⟩)] ["a", "e"] "a"
    ⟨⟨some 1, 10, some 5⟩, ⟨some 2, 20, some 6⟩, true⟩ (by decide) (by decide)
    (Or.inl ⟨rfl, by decide⟩)

/-- Counterexample to C11 as worded. The name `"e"` has no entry and the service
lists it, but the register callback is `NULL`: the registration has no result,
so there is no run of it in which the register callback is called once. -/
theorem register_null_callback_listed_not_called :
    g_hash_table_lookup [] "e" = none ∧
    "e" ∈ ["e"] ∧
    ¬ ∃ c tr,
      coding_game_service_app_integration_controller_service_event_with_listener
          ⟨[], some ⟨["e"]⟩⟩ "e" none 10 none (some 2) 20 none = some (c, tr) ∧
      tr.countP Event.isRegisterCall = 1 := by
  refine ⟨rfl, by decide, ?_⟩
  rintro ⟨c, tr, h, _⟩
  have hnone : coding_game_service_app_integration_controller_service_event_with_listener
      ⟨[], some ⟨["e"]⟩⟩ "e" none 10 none (some 2) 20 none = none := by decide
  rw [hnone] at h
  cases h

/-- C11, amended (one call at registration, by exact string match). With a service
whose list is `L`, elements repeated or not, registering a name `e` that has no
entry succeeds whenever the register callback is set or `e` is not in `L`; the
trace then holds one call of the register callback if some element of `L` equals
`e` and none otherwise, and never a call of a deregister callback. -/
theorem register_calls_once_iff_listed (t : GHashTable) (L : List String) (e : String)
    (register_interest_cb : Option Nat) (register_user_data : Nat)
    (destroy_register_data : Option Nat) (deregister_interest_cb : Option Nat)
    (deregister_user_data : Nat) (destroy_deregister_data : Option Nat)
    (h : g_hash_table_lookup t e = none)
    (hcb : register_interest_cb.isSome = true ∨ e ∉ L) :
    ∃ c tr,
      coding_game_service_app_integration_controller_service_event_with_listener
          ⟨t, some ⟨L⟩⟩ e register_interest_cb register_user_data destroy_register_data
          deregister_interest_cb deregister_user_data destroy_deregister_data = some (c, tr) ∧
      tr.countP Event.isRegisterCall = (if e ∈ L then 1 else 0) ∧
      registerCalls e tr = (if e ∈ L then 1 else 0) ∧
      tr.countP Event.isDeregisterCall = 0 := by
  rw [service_event_with_listener_fresh t _ e _ _ _ _ _ _ h]
  by_cases hL : e ∈ L
  · rcases hcb with hcb | hcb
    · obtain ⟨f, hf⟩ := Option.isSome_iff_exists.mp hcb
      subst hf
      simp only [listening_for_loop_of_mem e f register_user_data L hL, Option.map_some']
      refine ⟨_, _, rfl, ?_, ?_, ?_⟩
      · simp [hL, Event.isRegisterCall]
      · simp [hL, registerCalls, callsFor, Event.key, Event.isRegisterCall]
      · simp [Event.isDeregisterCall]
    · exact absurd hL hcb
  · simp only [listening_for_loop_of_not_mem e register_interest_cb register_user_data L hL,
      Option.map_some']
    refine ⟨_, _, rfl, ?_, ?_, ?_⟩
    · simp [hL]
    · simp [hL, registerCalls, callsFor]
    · simp

/-- Instance of C11: the service lists `"e"` twice and the callback is called once. -/
theorem register_calls_once_iff_listed_witness :
    ∃ c tr,
      coding_game_service_app_integration_controller_service_event_with_listener
          ⟨[("a", ⟨⟨some 3, 30, none⟩, ⟨some 4, 40, none⟩, true⟩)], some ⟨["e", "a", "e"]⟩⟩ "e"
          (some 1) 10 (some 5) (some 2) 20 (some 6) = some (c, tr) ∧
      tr.countP Event.isRegisterCall = (if "e" ∈ ["e", "a", "e"] then 1 else 0) ∧
      registerCalls "e" tr = (if "e" ∈ ["e", "a", "e"] then 1 else 0) ∧
      tr.countP Event.isDeregisterCall = 0 :=
  register_calls_once_iff_listed [("a", ⟨⟨some 3, 30, none⟩, ⟨some 4, 40, none⟩, true⟩)]
    ["e", "a", "e"] "e" (some 1) 10 (some 5) (some 2) 20 (some 6) (by decide) (Or.inl rfl)

/-- C12 (release once, after disarm). For an entry `k` of the table: when one run of
the change handler removes it, the calls made for it are, in this order, its
deregister callback if set, the destroy notifier of its register slot if set, the
destroy notifier of its deregister slot if set, each once and on the user data of
its own slot; when the run keeps it, no destroy notifier is called for it.
Disposal makes the same calls for it, the deregister callback only when the
entry is registered, and leaves no entry behind. -/
theorem removal_releases_once_after_disarm (t : GHashTable) (S : List String)
    (service : Option CodingGameServiceCodingGameService) (k : String)
    (p : AppIntegrationDataPair) (hd : KeysDistinct t)
    (hl : g_hash_table_lookup t k = some p) :
    ∃ c tr,
      coding_game_service_app_integration_controller_events_changed ⟨t, some ⟨S⟩⟩ = some (c, tr) ∧
      (g_hash_table_lookup c.event_handlers k = none →
        callsFor k tr =
          (p.deregister_data.callback.map fun f =>
            Event.deregister_cb k f p.deregister_data.data).toList ++
          ((p.register_data.destroy_data.map fun d =>
            Event.destroy_register k d p.register_data.data).toList ++
          (p.deregister_data.destroy_data.map fun d =>
            Event.destroy_deregister k d p.deregister_data.data).toList)) ∧
      (g_hash_table_lookup c.event_handlers k ≠ none → destroyCalls k tr = 0) ∧
      callsFor k (coding_game_service_app_integration_controller_dispose ⟨t, service⟩).2 =
        (if p.registered = true then
          (p.deregister_data.callback.map fun f =>
            Event.deregister_cb k f p.deregister_data.data).toList
        else []) ++
        ((p.register_data.destroy_data.map fun d =>
          Event.destroy_register k d p.register_data.data).toList ++
        (p.deregister_data.destroy_data.map fun d =>
          Event.destroy_deregister k d p.deregister_data.data).toList) ∧
      (coding_game_service_app_integration_controller_dispose ⟨t, service⟩).1.event_handlers
        = [] := by
  have hcalls := events_changed_loop_calls S t k p hd hl
  have hlook := events_changed_loop_lookup S t k p hd hl
  refine ⟨_, _, rfl, ?_, ?_, ?_, dispose_loop_table _⟩
  · intro hnone
    have hv : (events_changed_visit S k p).1 = none := by rw [← hlook]; exact hnone
    rw [← app_integration_data_pair_free_eq]
    exact hcalls.trans (events_changed_visit_removed S k p hv)
  · intro hsome
    have hv : (events_changed_visit S k p).1 ≠ none := by rw [← hlook]; exact hsome
    obtain ⟨w, hw⟩ := Option.ne_none_iff_exists'.mp hv
    unfold destroyCalls
    have h2 : callsFor k (events_changed_loop S t).2 = (events_changed_visit S k p).2 := hcalls
    simp only
    rw [h2]
    exact events_changed_visit_kept S k p w hw
  · rw [dispose_calls_eq, dispose_loop_calls t k p hd hl, dispose_visit_eq,
      app_integration_data_pair_free_eq]

/-- Instance of C12: `"e"` is registered and not listed, so the run removes it. -/
theorem removal_releases_once_after_disarm_witness :
    ∃ c tr,
      coding_game_service_app_integration_controller_events_changed
        ⟨[("a", ⟨⟨some 3, 30, some 7⟩, ⟨some 4, 40, some 8⟩, true⟩),
          ("e", ⟨⟨some 1, 10, some 5⟩, ⟨some 2, 20, some 6⟩, true⟩)], some ⟨["a"]⟩⟩ =
        some (c, tr) ∧
      (g_hash_table_lookup c.event_handlers "e" = none →
        callsFor "e" tr =
          [Event.deregister_cb "e" 2 20] ++
          ([Event.destroy_register "e" 5 10] ++ [Event.destroy_deregister "e" 6 20])) ∧
      (g_hash_table_lookup c.event_handlers "e" ≠ none → destroyCalls "e" tr = 0) ∧
      callsFor "e" (coding_game_service_app_integration_controller_dispose
        ⟨[("a", ⟨⟨some 3, 30, some 7⟩, ⟨some 4, 40, some 8⟩, true⟩),
          ("e", ⟨⟨some 1, 10, some 5⟩, ⟨some 2, 20, some 6⟩, true⟩)], some ⟨["a"]⟩⟩).2 =
        [Event.deregister_cb "e" 2 20] ++
        ([Event.destroy_register "e" 5 10] ++ [Event.destroy_deregister "e" 6 20]) ∧
      (coding_game_service_app_integration_controller_dispose
        ⟨[("a", ⟨⟨some 3, 30, some 7⟩, ⟨some 4, 40, some 8⟩, true⟩),
          ("e", ⟨⟨some 1, 10, some 5⟩, ⟨some 2, 20, some 6⟩, true⟩)],
          some ⟨["a"]⟩⟩).1.event_handlers = [] :=
  removal_releases_once_after_disarm
    [("a", ⟨⟨some 3, 30, some 7⟩, ⟨some 4, 40, some 8⟩, true⟩),
      ("e", ⟨⟨some 1, 10, some 5⟩, ⟨some 2, 20, some 6⟩, true⟩)] ["a"] (some ⟨["a"]⟩) "e"
    ⟨⟨some 1, 10, some 5⟩, ⟨some 2, 20, some 6⟩, true⟩ (by decide) (by decide)

/-- C13 (teardown drops the service first). Disposal leaves the controller without
a service. Its trace starts with the release of the service proxy when there was
one, and everything after that is a call of a deregister callback or of a destroy
notifier, the same calls as disposal makes on the controller with no service. -/
theorem dispose_clears_service_first (c : CodingGameServiceAppIntegrationController) :
    (coding_game_service_app_integration_controller_dispose c).1.service = none ∧
    ∃ calls,
      (coding_game_service_app_integration_controller_dispose c).2 =
        (match c.service with
          | some _ => [Event.unref_service]
          | none => []) ++ calls ∧
      Event.unref_service ∉ calls ∧
      (∀ e ∈ calls, e.isDeregisterCall = true ∨ e.isDestroyCall = true) ∧
      (coding_game_service_app_integration_controller_dispose ⟨c.event_handlers, none⟩).2 =
        calls := by
  refine ⟨rfl, (dispose_loop c.event_handlers).2, rfl, ?_, dispose_loop_client_calls _, rfl⟩
  intro hmem
  rcases dispose_loop_client_calls _ _ hmem with h | h <;> simp [Event.isDeregisterCall,
    Event.isDestroyCall] at h

/-- C14 (no automatic re-arm). A registered entry `e` whose name is not in the list
`S1` is removed by the run of the change handler on `S1`; a second run, on any
list `S2`, with `e` in it or not, makes no call for `e`, in particular none of a
register callback, and `e` has no entry after either run. -/
theorem events_changed_never_rearms (t : GHashTable) (S1 S2 : List String) (e : String)
    (pair : AppIntegrationDataPair) (hd : KeysDistinct t)
    (hl : g_hash_table_lookup t e = some pair) (hr : pair.registered = true) (h1 : e ∉ S1) :
    ∃ c1 tr1 c2 tr2,
      coding_game_service_app_integration_controller_events_changed ⟨t, some ⟨S1⟩⟩ =
        some (c1, tr1) ∧
      coding_game_service_app_integration_controller_events_changed
        ⟨c1.event_handlers, some ⟨S2⟩⟩ = some (c2, tr2) ∧
      g_hash_table_lookup c1.event_handlers e = none ∧
      callsFor e tr2 = [] ∧
      registerCalls e tr2 = 0 ∧
      g_hash_table_lookup c2.event_handlers e = none := by
  have hc : g_strv_contains S1 e = false := (g_strv_contains_eq_false_iff S1 e).mpr h1
  have hv : (events_changed_visit S1 e pair).1 = none := by
    simp [events_changed_visit, hr, hc]
  have hlook : g_hash_table_lookup (events_changed_loop S1 t).1 e = none :=
    (events_changed_loop_lookup S1 t e pair hd hl).trans hv
  have hcalls := events_changed_loop_calls_none S2 (events_changed_loop S1 t).1 e hlook
  refine ⟨_, _, _, _, rfl, rfl, hlook, hcalls, ?_, events_changed_loop_lookup_none S2 _ e hlook⟩
  unfold registerCalls
  simp only
  rw [hcalls]
  rfl

/-- Instance of C14: `"e"` is dropped by the list `["a"]` and `["a", "e"]` follows. -/
theorem events_changed_never_rearms_witness :
    ∃ c1 tr1 c2 tr2,
      coding_game_service_app_integration_controller_events_changed
        ⟨[("e", ⟨⟨some 1, 10, some 5⟩, ⟨some 2, 20, some 6⟩, true⟩),
          ("a", ⟨⟨some 3, 30, none⟩, ⟨some 4, 40, none⟩, true⟩)], some ⟨["a"]⟩⟩ =
        some (c1, tr1) ∧
      coding_game_service_app_integration_controller_events_changed
        ⟨c1.event_handlers, some ⟨["a", "e"]⟩⟩ = some (c2, tr2) ∧
      g_hash_table_lookup c1.event_handlers "e" = none ∧
      callsFor "e" tr2 = [] ∧
      registerCalls "e" tr2 = 0 ∧
      g_hash_table_lookup c2.event_handlers "e" = none :=
  events_changed_never_rearms
    [("e", ⟨⟨some 1, 10, some 5⟩, ⟨some 2, 20, some 6⟩, true⟩),
      ("a", ⟨⟨some 3, 30, none⟩, ⟨some 4, 40, none⟩, true⟩)] ["a"] ["a", "e"] "e"
    ⟨⟨some 1, 10, some 5⟩, ⟨some 2, 20, some 6⟩, true⟩ (by decide) (by decide) rfl (by decide)

/-- C15 (removed is terminal, re-registration is fresh). Once a run of the change
handler on a list without `e` has removed the registered entry `e`, registering
`e` again, while the service still reports that list, is accepted: no warning of
the duplicate guard, no call at all, and the table holds for `e` the callbacks,
user data and destroy notifiers just supplied, with `registered = FALSE`. -/
theorem register_after_removal_is_fresh (t : GHashTable) (S : List String) (e : String)
    (pair : AppIntegrationDataPair) (register_interest_cb : Option Nat)
    (register_user_data : Nat) (destroy_register_data : Option Nat)
    (deregister_interest_cb : Option Nat) (deregister_user_data : Nat)
    (destroy_deregister_data : Option Nat) (hd : KeysDistinct t)
    (hl : g_hash_table_lookup t e = some pair) (hr : pair.registered = true) (hS : e ∉ S) :
    ∃ c1 tr1 c2,
      coding_game_service_app_integration_controller_events_changed ⟨t, some ⟨S⟩⟩ =
        some (c1, tr1) ∧
      g_hash_table_lookup c1.event_handlers e = none ∧
      coding_game_service_app_integration_controller_service_event_with_listener c1 e
          register_interest_cb register_user_data destroy_register_data deregister_interest_cb
          deregister_user_data destroy_deregister_data = some (c2, []) ∧
      g_hash_table_lookup c2.event_handlers e =
        some ⟨⟨register_interest_cb, register_user_data, destroy_register_data⟩,
          ⟨deregister_interest_cb, deregister_user_data, destroy_deregister_data⟩, false⟩ := by
  have hc : g_strv_contains S e = false := (g_strv_contains_eq_false_iff S e).mpr hS
  have hv : (events_changed_visit S e pair).1 = none := by
    simp [events_changed_visit, hr, hc]
  have hlook : g_hash_table_lookup (events_changed_loop S t).1 e = none :=
    (events_changed_loop_lookup S t e pair hd hl).trans hv
  refine ⟨⟨(events_changed_loop S t).1, some ⟨S⟩⟩, _,
    ⟨(events_changed_loop S t).1 ++ [(e, app_integration_data_pair_new register_interest_cb
      register_user_data destroy_register_data deregister_interest_cb deregister_user_data
      destroy_deregister_data)], some ⟨S⟩⟩, rfl, hlook, ?_, ?_⟩
  · rw [service_event_with_listener_fresh _ _ e _ _ _ _ _ _ hlook]
    simp only [listening_for_loop_of_not_mem e register_interest_cb register_user_data S hS,
      Option.map_some']
  · rw [g_hash_table_lookup_append_single, hlook]
    simp [app_integration_data_pair_new]

/-- Instance of C15: `"e"` is removed by the list `["a"]`, then registered anew. -/
theorem register_after_removal_is_fresh_witness :
    ∃ c1 tr1 c2,
      coding_game_service_app_integration_controller_events_changed
        ⟨[("e", ⟨⟨some 1, 10, some 5⟩, ⟨some 2, 20, some 6⟩, true⟩)], some ⟨["a"]⟩⟩ =
        some (c1, tr1) ∧
      g_hash_table_lookup c1.event_handlers "e" = none ∧
      coding_game_service_app_integration_controller_service_event_with_listener c1 "e"
          (some 11) 110 (some 15) (some 12) 120 (some 16) = some (c2, []) ∧
      g_hash_table_lookup c2.event_handlers "e" =
        some ⟨⟨some 11, 110, some 15⟩, ⟨some 12, 120, some 16⟩, false⟩ :=
  register_after_removal_is_fresh
    [("e", ⟨⟨some 1, 10, some 5⟩, ⟨some 2, 20, some 6⟩, true⟩)] ["a"] "e"
    ⟨⟨some 1, 10, some 5⟩, ⟨some 2, 20, some 6⟩, true⟩ (some 11) 110 (some 15) (some 12) 120
    (some 16) (by decide) (by decide) rfl (by decide)

/-- C16 (post-pass consistency). After one run of the change handler, whatever the
table and its flags were, every entry left in the table has `registered = TRUE`
exactly when its name is in the list the service reports. -/
theorem events_changed_flags_match_list (t : GHashTable) (S : List String) :
    ∃ c tr,
      coding_game_service_app_integration_controller_events_changed ⟨t, some ⟨S⟩⟩ = some (c, tr) ∧
      ∀ k p, (k, p) ∈ c.event_handlers → (p.registered = true ↔ k ∈ S) := by
  refine ⟨_, _, rfl, ?_⟩
  intro k p hm
  rw [events_changed_loop_registered S t k p hm]
  exact g_strv_contains_iff S k

/-- C17 (one fire per handler, whatever the visiting order). Take a table with
distinct keys and the same entries listed in any other order, and run the change
handler on each with the same list of the service. The two tables left behind
hold the same entries, so every lookup agrees; the two traces hold the same calls,
and the calls made for any one name are the same sequence; and for any one name
at most one callback is called. -/
theorem events_changed_order_independent (t u : GHashTable) (S : List String)
    (hd : KeysDistinct t) (hp : List.Perm t u) :
    ∃ c tr c2 tr2,
      coding_game_service_app_integration_controller_events_changed ⟨t, some ⟨S⟩⟩ = some (c, tr) ∧
      coding_game_service_app_integration_controller_events_changed ⟨u, some ⟨S⟩⟩ =
        some (c2, tr2) ∧
      List.Perm c.event_handlers c2.event_handlers ∧
      (∀ k, g_hash_table_lookup c.event_handlers k = g_hash_table_lookup c2.event_handlers k) ∧
      List.Perm tr tr2 ∧
      (∀ k, callsFor k tr = callsFor k tr2) ∧
      (∀ k, registerCalls k tr + deregisterCalls k tr ≤ 1) := by
  have hperm := events_changed_loop_perm S t u hp
  have hdu : KeysDistinct u := keysDistinct_perm t u hp hd
  refine ⟨_, _, _, _, rfl, rfl, hperm.1, ?_, hperm.2, ?_, ?_⟩
  · intro k
    exact g_hash_table_lookup_perm _ _ k hperm.1 (events_changed_loop_keysDistinct S t hd)
  · intro k
    have hlk := g_hash_table_lookup_perm t u k hp hd
    cases h : g_hash_table_lookup t k with
    | none =>
      have h2 : g_hash_table_lookup u k = none := by rw [← hlk]; exact h
      exact (events_changed_loop_calls_none S t k h).trans
        (events_changed_loop_calls_none S u k h2).symm
    | some p =>
      have h2 : g_hash_table_lookup u k = some p := by rw [← hlk]; exact h
      exact (events_changed_loop_calls S t k p hd h).trans
        (events_changed_loop_calls S u k p hdu h2).symm
  · intro k
    unfold registerCalls deregisterCalls
    simp only
    cases h : g_hash_table_lookup t k with
    | none => simp [events_changed_loop_calls_none S t k h]
    | some p =>
      rw [events_changed_loop_calls S t k p hd h]
      exact events_changed_visit_one_callback S k p

/-- Instance of C17: three entries, one to remove, one to arm, one to leave, visited
in two different orders. -/
theorem events_changed_order_independent_witness :
    ∃ c tr c2 tr2,
      coding_game_service_app_integration_controller_events_changed
        ⟨[("a", ⟨⟨some 1, 10, some 5⟩, ⟨some 2, 20, some 6⟩, true⟩),
          ("b", ⟨⟨some 3, 30, none⟩, ⟨some 4, 40, none⟩, false⟩),
          ("d", ⟨⟨some 7, 70, none⟩, ⟨some 8, 80, none⟩, true⟩)], some ⟨["b", "d"]⟩⟩ =
        some (c, tr) ∧
      coding_game_service_app_integration_controller_events_changed
        ⟨[("b", ⟨⟨some 3, 30, none⟩, ⟨some 4, 40, none⟩, false⟩),
          ("a", ⟨⟨some 1, 10, some 5⟩, ⟨some 2, 20, some 6⟩, true⟩),
          ("d", ⟨⟨some 7, 70, none⟩, ⟨some 8, 80, none⟩, true⟩)], some ⟨["b", "d"]⟩⟩ =
        some (c2, tr2) ∧
      List.Perm c.event_handlers c2.event_handlers ∧
      (∀ k, g_hash_table_lookup c.event_handlers k = g_hash_table_lookup c2.event_handlers k) ∧
      List.Perm tr tr2 ∧
      (∀ k, callsFor k tr = callsFor k tr2) ∧
      (∀ k, registerCalls k tr + deregisterCalls k tr ≤ 1) :=
  events_changed_order_independent
    [("a", ⟨⟨some 1, 10, some 5⟩, ⟨some 2, 20, some 6⟩, true⟩),
      ("b", ⟨⟨some 3, 30, none⟩, ⟨some 4, 40, none⟩, false⟩),
      ("d", ⟨⟨some 7, 70, none⟩, ⟨some 8, 80, none⟩, true⟩)]
    [("b", ⟨⟨some 3, 30, none⟩, ⟨some 4, 40, none⟩, false⟩),
      ("a", ⟨⟨some 1, 10, some 5⟩, ⟨some 2, 20, some 6⟩, true⟩),
      ("d", ⟨⟨some 7, 70, none⟩, ⟨some 8, 80, none⟩, true⟩)] ["b", "d"] (by decide)
    (List.Perm.swap _ _ _)

/-- C18 (registration touches only the new entry), evaluated where the code departs
from it. With `"a"` in the table and a service that lists `"e"`, registering `"e"`
with a `NULL` register callback has no result: the pair is inserted and the
callback is then called through the `NULL` pointer, so no table with the one
entry added comes back. The change handler, run on the table that holds that
very pair, tests the pointer, makes no call and returns; and the registration
returns when the callback is set. -/
theorem register_null_callback_listed_aborts :
    coding_game_service_app_integration_controller_service_event_with_listener
        ⟨[("a", ⟨⟨some 3, 30, some 7⟩, ⟨some 4, 40, some 8⟩, true⟩)], some ⟨["a", "e"]⟩⟩ "e"
        none 10 (some 5) (some 2) 20 (some 6) = none ∧
    coding_game_service_app_integration_controller_events_changed
        ⟨[("a", ⟨⟨some 3, 30, some 7⟩, ⟨some 4, 40, some 8⟩, true⟩),
          ("e", ⟨⟨none, 10, some 5⟩, ⟨some 2, 20, some 6⟩, false⟩)], some ⟨["a", "e"]⟩⟩ =
      some (⟨[("a", ⟨⟨some 3, 30, some 7⟩, ⟨some 4, 40, some 8⟩, true⟩),
          ("e", ⟨⟨none, 10, some 5⟩, ⟨some 2, 20, some 6⟩, true⟩)], some ⟨["a", "e"]⟩⟩, []) ∧
    coding_game_service_app_integration_controller_service_event_with_listener
        ⟨[("a", ⟨⟨some 3, 30, some 7⟩, ⟨some 4, 40, some 8⟩, true⟩)], some ⟨["a", "e"]⟩⟩ "e"
        (some 1) 10 (some 5) (some 2) 20 (some 6) =
      some (⟨[("a", ⟨⟨some 3, 30, some 7⟩, ⟨some 4, 40, some 8⟩, true⟩),
          ("e", ⟨⟨some 1, 10, some 5⟩, ⟨some 2, 20, some 6⟩, false⟩)], some ⟨["a", "e"]⟩⟩,
        [Event.register_cb "e" 1 10]) := by
  refine ⟨by decide, by decide, by decide⟩

/-- Frame of a registration that returns. Registering a name `e` that has
no entry, with or without a service, returns whenever the register callback is
set or the service does not list `e`. The table is then the old one with the one
entry for `e` added, so every other name looks up to the same pair as before; the
service is as it was; and every call in the trace is made for `e`, none for
another name. -/
theorem register_touches_only_new_entry (t : GHashTable)
    (service : Option CodingGameServiceCodingGameService) (e : String)
    (register_interest_cb : Option Nat) (register_user_data : Nat)
    (destroy_register_data : Option Nat) (deregister_interest_cb : Option Nat)
    (deregister_user_data : Nat) (destroy_deregister_data : Option Nat)
    (h : g_hash_table_lookup t e = none)
    (hcb : register_interest_cb.isSome = true ∨
      ∀ s, service = some s → e ∉ s.currently_listening_for_events) :
    ∃ c tr,
      coding_game_service_app_integration_controller_service_event_with_listener
          ⟨t, service⟩ e register_interest_cb register_user_data destroy_register_data
          deregister_interest_cb deregister_user_data destroy_deregister_data = some (c, tr) ∧
      c.event_handlers =
        t ++ [(e, ⟨⟨register_interest_cb, register_user_data, destroy_register_data⟩,
          ⟨deregister_interest_cb, deregister_user_data, destroy_deregister_data⟩, false⟩)] ∧
      c.service = service ∧
      (∀ k, k ≠ e → g_hash_table_lookup c.event_handlers k = g_hash_table_lookup t k) ∧
      (∀ ev ∈ tr, ev.key = some e) ∧
      (∀ k, k ≠ e → callsFor k tr = []) := by
  have hframe : ∀ k, k ≠ e →
      g_hash_table_lookup (t ++ [(e, app_integration_data_pair_new register_interest_cb
        register_user_data destroy_register_data deregister_interest_cb deregister_user_data
        destroy_deregister_data)]) k = g_hash_table_lookup t k := by
    intro k hk
    have hne : ¬ e = k := fun h2 => hk h2.symm
    rw [g_hash_table_lookup_append_single]
    cases g_hash_table_lookup t k <;> simp [hne]
  rw [service_event_with_listener_fresh t service e _ _ _ _ _ _ h]
  cases service with
  | none =>
    refine ⟨_, _, rfl, rfl, rfl, hframe, ?_, ?_⟩
    · simp
    · intro k _
      rfl
  | some s =>
    have hloop : ∃ calls, listening_for_loop e register_interest_cb register_user_data
        s.currently_listening_for_events = some calls ∧ ∀ ev ∈ calls, ev.key = some e := by
      by_cases hL : e ∈ s.currently_listening_for_events
      · rcases hcb with hcb | hcb
        · obtain ⟨f, hf⟩ := Option.isSome_iff_exists.mp hcb
          subst hf
          refine ⟨_, listening_for_loop_of_mem e f register_user_data _ hL, ?_⟩
          intro ev hev
          simp at hev
          subst hev
          rfl
        · exact absurd hL (hcb s rfl)
      · exact ⟨_, listening_for_loop_of_not_mem e _ _ _ hL, by simp⟩
    obtain ⟨calls, hcalls, hkeys⟩ := hloop
    simp only [hcalls, Option.map_some']
    refine ⟨_, _, rfl, rfl, rfl, hframe, hkeys, ?_⟩
    intro k hk
    exact callsFor_eq_nil k e calls hkeys (fun h2 => hk h2.symm)

/-- Instance of the frame: `"e"` is registered next to `"a"` while the service lists both. -/
theorem register_touches_only_new_entry_witness :
    ∃ c tr,
      coding_game_service_app_integration_controller_service_event_with_listener
          ⟨[("a", ⟨⟨some 3, 30, some 7⟩, ⟨some 4, 40, some 8⟩, false⟩)], some ⟨["a", "e"]⟩⟩ "e"
          (some 1) 10 (some 5) (some 2) 20 (some 6) = some (c, tr) ∧
      c.event_handlers =
        [("a", ⟨⟨some 3, 30, some 7⟩, ⟨some 4, 40, some 8⟩, false⟩)] ++
          [("e", ⟨⟨some 1, 10, some 5⟩, ⟨some 2, 20, some 6⟩, false⟩)] ∧
      c.service = some ⟨["a", "e"]⟩ ∧
      (∀ k, k ≠ "e" → g_hash_table_lookup c.event_handlers k =
        g_hash_table_lookup [("a", ⟨⟨some 3, 30, some 7⟩, ⟨some 4, 40, some 8⟩, false⟩)] k) ∧
      (∀ ev ∈ tr, ev.key = some "e") ∧
      (∀ k, k ≠ "e" → callsFor k tr = []) :=
  register_touches_only_new_entry
    [("a", ⟨⟨some 3, 30, some 7⟩, ⟨some 4, 40, some 8⟩, false⟩)] (some ⟨["a", "e"]⟩) "e"
    (some 1) 10 (some 5) (some 2) 20 (some 6) (by decide) (Or.inl rfl)

/-- C19 (absent callbacks are skipped). For an entry `e` of the table: unregistered,
with no register callback and its name listed, one run of the change handler
returns, makes no call for it and leaves it with `registered = TRUE`;
registered, with no deregister callback and its name not listed, the run returns,
removes it and the only calls made for it are those of its destroy notifiers;
registered with no deregister callback, disposal removes it and the only calls
made for it are those of its destroy notifiers. -/
theorem absent_callbacks_are_skipped (t : GHashTable) (S : List String)
    (service : Option CodingGameServiceCodingGameService) (e : String)
    (p : AppIntegrationDataPair) (hd : KeysDistinct t)
    (hl : g_hash_table_lookup t e = some p) :
    (p.registered = false → p.register_data.callback = none → e ∈ S →
      ∃ c tr,
        coding_game_service_app_integration_controller_events_changed ⟨t, some ⟨S⟩⟩ =
          some (c, tr) ∧
        callsFor e tr = [] ∧
        g_hash_table_lookup c.event_handlers e =
          some ⟨p.register_data, p.deregister_data, true⟩) ∧
    (p.registered = true → p.deregister_data.callback = none → e ∉ S →
      ∃ c tr,
        coding_game_service_app_integration_controller_events_changed ⟨t, some ⟨S⟩⟩ =
          some (c, tr) ∧
        callsFor e tr = app_integration_data_pair_free e p ∧
        deregisterCalls e tr = 0 ∧
        g_hash_table_lookup c.event_handlers e = none) ∧
    (p.registered = true → p.deregister_data.callback = none →
      callsFor e (coding_game_service_app_integration_controller_dispose ⟨t, service⟩).2 =
        app_integration_data_pair_free e p ∧
      deregisterCalls e (coding_game_service_app_integration_controller_dispose ⟨t, service⟩).2
        = 0 ∧
      (coding_game_service_app_integration_controller_dispose ⟨t, service⟩).1.event_handlers
        = []) := by
  have hcalls := events_changed_loop_calls S t e p hd hl
  have hlook := events_changed_loop_lookup S t e p hd hl
  have hfree : (app_integration_data_pair_free e p).countP Event.isDeregisterCall = 0 := by
    unfold app_integration_data_pair_free
    cases p.register_data.destroy_data <;> cases p.deregister_data.destroy_data <;>
      simp [Event.isDeregisterCall]
  refine ⟨?_, ?_, ?_⟩
  · intro hr hcb hS
    have hc : g_strv_contains S e = true := (g_strv_contains_iff S e).mpr hS
    have hv : events_changed_visit S e p =
        (some ⟨p.register_data, p.deregister_data, true⟩, []) := by
      simp [events_changed_visit, hr, hc, hcb]
    rw [hv] at hcalls hlook
    exact ⟨_, _, rfl, hcalls, hlook⟩
  · intro hr hcb hS
    have hc : g_strv_contains S e = false := (g_strv_contains_eq_false_iff S e).mpr hS
    have hv : events_changed_visit S e p = (none, app_integration_data_pair_free e p) := by
      simp [events_changed_visit, hr, hc, hcb]
    rw [hv] at hcalls hlook
    refine ⟨_, _, rfl, hcalls, ?_, hlook⟩
    unfold deregisterCalls
    simp only
    rw [hcalls]
    exact hfree
  · intro hr hcb
    have hdc : callsFor e (coding_game_service_app_integration_controller_dispose
        ⟨t, service⟩).2 = app_integration_data_pair_free e p := by
      rw [dispose_calls_eq, dispose_loop_calls t e p hd hl]
      simp [dispose_visit, hr, hcb]
    refine ⟨hdc, ?_, dispose_loop_table _⟩
    unfold deregisterCalls
    rw [hdc]
    exact hfree

/-- Instance of C19: `"n"` has no register callback and is listed; `"m"` is
registered, has no deregister callback and is not listed. -/
theorem absent_callbacks_are_skipped_witness :
    (∃ c tr,
      coding_game_service_app_integration_controller_events_changed
        ⟨[("n", ⟨⟨none, 10, some 5⟩, ⟨some 2, 20, some 6⟩, false⟩),
          ("m", ⟨⟨some 3, 30, some 7⟩, ⟨none, 40, some 8⟩, true⟩)], some ⟨["n"]⟩⟩ =
        some (c, tr) ∧
      callsFor "n" tr = [] ∧
      g_hash_table_lookup c.event_handlers "n" =
        some ⟨⟨none, 10, some 5⟩, ⟨some 2, 20, some 6⟩, true⟩) ∧
    (∃ c tr,
      coding_game_service_app_integration_controller_events_changed
        ⟨[("n", ⟨⟨none, 10, some 5⟩, ⟨some 2, 20, some 6⟩, false⟩),
          ("m", ⟨⟨some 3, 30, some 7⟩, ⟨none, 40, some 8⟩, true⟩)], some ⟨["n"]⟩⟩ =
        some (c, tr) ∧
      callsFor "m" tr = [Event.destroy_register "m" 7 30, Event.destroy_deregister "m" 8 40] ∧
      deregisterCalls "m" tr = 0 ∧
      g_hash_table_lookup c.event_handlers "m" = none) ∧
    callsFor "m" (coding_game_service_app_integration_controller_dispose
      ⟨[("n", ⟨⟨none, 10, some 5⟩, ⟨some 2, 20, some 6⟩, false⟩),
        ("m", ⟨⟨some 3, 30, some 7⟩, ⟨none, 40, some 8⟩, true⟩)], some ⟨["n"]⟩⟩).2 =
      [Event.destroy_register "m" 7 30, Event.destroy_deregister "m" 8 40] :=
  ⟨(absent_callbacks_are_skipped
      [("n", ⟨⟨none, 10, some 5⟩, ⟨some 2, 20, some 6⟩, false⟩),
        ("m", ⟨⟨some 3, 30, some 7⟩, ⟨none, 40, some 8⟩, true⟩)] ["n"] (some ⟨["n"]⟩) "n"
      ⟨⟨none, 10, some 5⟩, ⟨some 2, 20, some 6⟩, false⟩ (by decide) (by decide)).1 rfl rfl
      (by decide),
    (absent_callbacks_are_skipped
      [("n", ⟨⟨none, 10, some 5⟩, ⟨some 2, 20, some 6⟩, false⟩),
        ("m", ⟨⟨some 3, 30, some 7⟩, ⟨none, 40, some 8⟩, true⟩)] ["n"] (some ⟨["n"]⟩) "m"
      ⟨⟨some 3, 30, some 7⟩, ⟨none, 40, some 8⟩, true⟩ (by decide) (by decide)).2.1 rfl rfl
      (by decide),
    ((absent_callbacks_are_skipped
      [("n", ⟨⟨none, 10, some 5⟩, ⟨some 2, 20, some 6⟩, false⟩),
        ("m", ⟨⟨some 3, 30, some 7⟩, ⟨none, 40, some 8⟩, true⟩)] ["n"] (some ⟨["n"]⟩) "m"
      ⟨⟨some 3, 30, some 7⟩, ⟨none, 40, some 8⟩, true⟩ (by decide) (by decide)).2.2 rfl
      rfl).1⟩

end CodingGameService
